import Mathlib

/-!
Verification of the toulbar2 WCSP-as-constraint subsystem
(src/core/tb2globalwcsp.hpp) and parts of the file readers
(src/utils/tb2reader.cpp), by shallow embedding into Lean.

Costs (C++ type Cost, a 64-bit integer) are modelled as Int; the code under
scrutiny never overflows in the modelled paths, and where an overflow test
occurs in the source it is modelled explicitly.  Detected contradictions
(C++ exceptions of class Contradiction) are modelled by Option/Except values
or by an explicit Bool in the result of a step function.
-/

namespace Toulbar2

/-- The ten ToulBar2 preprocessing/propagation feature flags that
`WeightedCSPConstraint::protect` saves and overwrites
(tb2globalwcsp.hpp lines 175-229). -/
structure ToulFlags where
  preprocessFunctional : Int
  elimDegree : Int
  elimDegree_preprocessing : Int
  elimDegree_ : Int
  elimDegree_preprocessing_ : Int
  DEE : Int
  DEE_ : Int
  FullEAC : Bool
  RASPS : Bool
  useRASPS : Int
  deriving Repr, DecidableEq

/-- The values `protect` writes into the live ToulBar2 flags: every feature
incompatible with channelling is switched off (tb2globalwcsp.hpp 203-212). -/
def protectedFlags : ToulFlags :=
  { preprocessFunctional := 0
    elimDegree := -1
    elimDegree_preprocessing := -1
    elimDegree_ := -1
    elimDegree_preprocessing_ := -1
    DEE := 0
    DEE_ := 0
    FullEAC := false
    RASPS := false
    useRASPS := 0 }

/-- Protection-related process-wide state: the live ToulBar2 flags, the static
saved copies inside WeightedCSPConstraint, and the static `_protected_` flag. -/
structure ProtState where
  toulbar : ToulFlags
  saved : ToulFlags
  protFlag : Bool
  deriving Repr, DecidableEq

/-- `WeightedCSPConstraint::protect(master)` (tb2globalwcsp.hpp 186-213):
when `master` is true the current live flags are first copied into the static
saved slots; in both cases `_protected_` is raised and the live flags are
overwritten with the channelling-safe values. -/
def protect (master : Bool) (s : ProtState) : ProtState :=
  { toulbar := protectedFlags
    saved := if master then s.toulbar else s.saved
    protFlag := true }

/-- `WeightedCSPConstraint::unprotect()` (tb2globalwcsp.hpp 214-229): if
`_protected_` is set, clear it and restore the live flags from the saved
copies; otherwise do nothing. -/
def unprotect (s : ProtState) : ProtState :=
  if s.protFlag then { toulbar := s.saved, saved := s.saved, protFlag := false } else s

/-- The slave-problem data the meta-constraint reads: current lower bound
`getLb()`, the accumulated shift `getNegativeLb()`, and `isfinite()`. -/
structure SlaveWCSP where
  lb : Int
  negativeLb : Int
  finite : Bool
  deriving Repr, DecidableEq

/-- State of one WeightedCSPConstraint (tb2globalwcsp.hpp 14-26): the fields
read by `universal`, `assign` and the constructor.  `problem` and
`negproblem` are the optional slave and negated-slave problems. -/
structure ConstraintState where
  isfinite : Bool
  strongDuality : Bool
  lb : Int
  ub : Int
  negCost : Int
  problem : Option SlaveWCSP
  negproblem : Option SlaveWCSP
  nonassigned : Int
  deriving Repr, DecidableEq

/-- `WeightedCSPConstraint::universal()` (tb2globalwcsp.hpp 155-162):
true exactly when `isfinite && problem && negproblem && problem->getLb() >= lb
&& negproblem->getLb() > -ub + negCost`. -/
def universal (s : ConstraintState) : Bool :=
  match s.problem, s.negproblem with
  | some p, some np =>
      s.isfinite && decide (p.lb ≥ s.lb) && decide (np.lb > -s.ub + s.negCost)
  | _, _ => false

/-- Load-time errors of the constructor; `WrongFileFormat` is the exception
thrown on bad bounds (tb2globalwcsp.hpp 46). -/
inductive LoadError where
  | wrongFileFormat
  deriving Repr, DecidableEq

/-- The `WeightedCSPConstraint` constructor (tb2globalwcsp.hpp 31-104),
restricted to the state it computes: it throws WrongFileFormat when
`lb >= ub`; otherwise it accumulates `negCost` from the `getNegativeLb()` of both slaves, clears `isfinite` when a slave is not finite and
`duplicateHard` is unset, and initialises `nonassigned` to the arity.
(The callback installation, slave-table registration and slave ub updates
performed by the constructor are not needed by the claims about it.) -/
def mkWeightedCSPConstraint (arity : Int) (problem negproblem : Option SlaveWCSP)
    (lb_in ub_in : Int) (duplicateHard strongDualityIn : Bool) :
    Except LoadError ConstraintState :=
  if lb_in ≥ ub_in then .error .wrongFileFormat
  else
    let negCost1 : Int := match problem with
      | some p => p.negativeLb
      | none => 0
    let negCost2 : Int := negCost1 + (match negproblem with
      | some np => np.negativeLb
      | none => 0)
    let fin1 : Bool := match problem with
      | some p => !(!duplicateHard && !p.finite)
      | none => true
    let fin2 : Bool := fin1 && (match negproblem with
      | some np => !(!duplicateHard && !np.finite)
      | none => true)
    .ok { isfinite := fin2
          strongDuality := strongDualityIn
          lb := lb_in
          ub := ub_in
          negCost := negCost2
          problem := problem
          negproblem := negproblem
          nonassigned := arity }

/-- Outcome of `WeightedCSPConstraint::assign` (tb2globalwcsp.hpp 345-364):
which action the method takes after decrementing the counter. -/
inductive AssignAction where
  | noop
  | deconnectUniversal
  | projectNaryTable
  | propagateCall
  deriving Repr, DecidableEq

/-- Result of `assign`: the new `nonassigned` counter and the action taken. -/
structure AssignResult where
  nonassigned : Int
  action : AssignAction
  deriving Repr, DecidableEq

/-- `WeightedCSPConstraint::assign(varIndex)` (tb2globalwcsp.hpp 345-364).
`narySize` stands for the constant NARYPROJECTIONSIZE (defined outside the
given sources); `connectedAt` is `connected(varIndex)`.  When connected, the
scope position is deconnected, `nonassigned` is decremented, and then:
deconnect the whole constraint if `universal()`; deconnect and project as an
n-ary table when `nonassigned <= NARYPROJECTIONSIZE && (!strongDuality ||
nonassigned == 0)`; otherwise propagate. -/
def assignScopeVar (narySize : Int) (s : ConstraintState) (connectedAt : Bool) :
    AssignResult :=
  if connectedAt then
    let na := s.nonassigned - 1
    if universal s then
      { nonassigned := na, action := .deconnectUniversal }
    else if decide (na ≤ narySize) && (!s.strongDuality || decide (na = 0)) then
      { nonassigned := na, action := .projectNaryTable }
    else
      { nonassigned := na, action := .propagateCall }
  else
    { nonassigned := s.nonassigned, action := .noop }

/-- Solver-wide state read and written by `WeightedCSPConstraint::eval`
(tb2globalwcsp.hpp 231-283): the generic store depth, the propagation-activation flags of the two slaves, whether the tb2 event hooks are installed
(they are set to NULL during the probe), and the protection state. -/
structure SolverState where
  depth : Nat
  probActive : Bool
  negActive : Bool
  hooksInstalled : Bool
  prot : ProtState
  deriving Repr, DecidableEq

/-- Oracle describing what happens inside the `try` block of `eval` for one
slave: whether `enforceUb()` raises a Contradiction (before the activation
flag is read), and the outcome of `assignLS` on the tuple — `none` when it
raises a Contradiction, `some l` when it completes leaving lower bound `l`. -/
structure EvalProbe where
  enforceFails : Bool
  assignResult : Option Int
  deriving Repr, DecidableEq

/-- The constraint parameters `eval` compares the probed lower bound with. -/
structure EvalEnv where
  hasProblem : Bool
  hasNeg : Bool
  lb : Int
  ub : Int
  negCost : Int
  maxCost : Int
  deriving Repr, DecidableEq

/-- `WeightedCSPConstraint::eval(s)` (tb2globalwcsp.hpp 231-283).  The tuple
itself only determines the probe outcome, abstracted by the two oracles.
The method NULLs the event hooks, calls `protect()`, records the store depth,
stores, probes the slave (or the negated slave), catches any Contradiction,
restores the store to the recorded depth, restores the activation
status of the slaves, calls `unprotect()` and reinstalls the hooks; it returns MAX_COST if
the probe showed the tuple violates the bounds and MIN_COST otherwise. -/
def evalModel (env : EvalEnv) (pp pn : EvalProbe) (st : SolverState) :
    Int × SolverState :=
  let st1 : SolverState :=
    { st with hooksInstalled := false, prot := protect true st.prot }
  let depth0 := st1.depth
  let st2 := { st1 with depth := st1.depth + 1 }
  let r : Bool × Bool × Bool × SolverState :=
    if env.hasProblem then
      if pp.enforceFails then (true, true, true, st2)
      else
        let pActive := st2.probActive
        let st3 := { st2 with probActive := true }
        match pp.assignResult with
        | none => (true, pActive, true, st3)
        | some l => (decide (l < env.lb), pActive, true, st3)
    else if env.hasNeg then
      if pn.enforceFails then (true, true, true, st2)
      else
        let nActive := st2.negActive
        let st3 := { st2 with negActive := true }
        match pn.assignResult with
        | none => (true, true, nActive, st3)
        | some l => (decide (l ≤ -env.ub + env.negCost), true, nActive, st3)
    else (false, true, true, st2)
  match r with
  | (unsat, problemActive, negproblemActive, st3) =>
    let st4 := { st3 with depth := depth0 }
    let st5 := if problemActive then st4 else { st4 with probActive := false }
    let st6 := if negproblemActive then st5 else { st5 with negActive := false }
    let st7 := { st6 with prot := unprotect st6.prot, hooksInstalled := true }
    (if unsat then env.maxCost else 0, st7)

/-- One entry of the static table `WeightedCSPConstraint::WeightedCSPConstraints`
as seen by the four channelled event callbacks: whether the constraint is
connected, whether `getIndex(masterVar) != -1` (the scope of the constraint
contains the master variable of the event), and the indices of its slave and
negated-slave problems. -/
structure MetaEntry where
  connected : Bool
  containsVar : Bool
  problemIdx : Option Int
  negproblemIdx : Option Int
  deriving Repr, DecidableEq

/-- The forward targets generated by one table entry inside the callback loop
(tb2globalwcsp.hpp 494-520 and its three clones): forward to the slave
problem if present and different from the originating WCSP, then (re-checking
connectedness, which cannot change in this pure model) to the negated slave
under the same no-re-entry test. -/
def entryTargets (origin : Int) (e : MetaEntry) : List Int :=
  if e.connected && e.containsVar then
    (match e.problemIdx with
     | some p => if p ≠ origin then [p] else []
     | none => []) ++
    (match e.negproblemIdx with
     | some q => if e.connected && decide (q ≠ origin) then [q] else []
     | none => [])
  else []

/-- All forwards of one callback in iteration order: the map is iterated in
ascending key order (C++ std::map), so `entries` is the table as a key-sorted
association list; each forward is tagged with the key of the entry that
produced it. -/
def allForwards (origin : Int) (entries : List (Int × MetaEntry)) :
    List (Int × Int) :=
  entries.flatMap (fun ke => (entryTargets origin ke.2).map (fun t => (ke.1, t)))

/-- Run the forwards in order with a failure oracle: forwarding the operation
to target `t` raises a Contradiction exactly when `failsAt t`.  Returns the
forwards actually attempted (the failing one included) and the failing
target, if any; the loop aborts at the first failure
(tb2globalwcsp.hpp 499-517). -/
def runForwards (failsAt : Int → Bool) :
    List (Int × Int) → List (Int × Int) × Option Int
  | [] => ([], none)
  | (k, t) :: rest =>
      if failsAt t then ([(k, t)], some t)
      else
        let r := runForwards failsAt rest
        ((k, t) :: r.1, r.2)

/-- Result of one channelled event callback. -/
structure ChanResult where
  raised : Bool
  prot : ProtState
  originActive : Bool
  trace : List (Int × Int)
  cleaned : List Int
  deriving Repr

/-- One channelled event callback — `tb2setvalue`, `tb2removevalue`,
`tb2setmin` or `tb2setmax` (tb2globalwcsp.hpp 465-708).  The four functions
share their control flow verbatim and differ only in the variable operation
invoked (`assign`/`remove`/`increase`/`decrease`) and, for `tb2setvalue` in
the master case, an extra call to the own `setvalue` hook of the solver; the model
covers all four.  `origin` is the WCSP the event fired in.  Master case:
deactivate propagation in the master, `protect(true)`, run the forward loop,
reactivate and `unprotect()` on normal exit; on a Contradiction in a forward,
clean up the failing peer, `unprotect()` and re-raise (no reactivation).
Slave case: deactivate propagation in the slave, `unprotect()`, apply the
operation to the corresponding master variable (`masterOpFails` tells whether
that raises), `protect(false)`, run the loop, reactivate on normal exit; the
final `unprotect()` is executed only when the event came from the master. -/
def channelEvent (masterIdx : Int) (entries : List (Int × MetaEntry))
    (failsAt : Int → Bool) (masterOpFails : Bool)
    (origin : Int) (s0 : ProtState) : ChanResult :=
  if origin = masterIdx then
    let s1 := protect true s0
    let r := runForwards failsAt (allForwards origin entries)
    match r.2 with
    | some bad =>
        { raised := true, prot := unprotect s1, originActive := false,
          trace := r.1, cleaned := [bad] }
    | none =>
        { raised := false, prot := unprotect s1, originActive := true,
          trace := r.1, cleaned := [] }
  else
    let s1 := unprotect s0
    if masterOpFails then
      { raised := true, prot := s1, originActive := false,
        trace := [], cleaned := [] }
    else
      let s2 := protect false s1
      let r := runForwards failsAt (allForwards origin entries)
      match r.2 with
      | some bad =>
          { raised := true, prot := unprotect s2, originActive := false,
            trace := r.1, cleaned := [bad] }
      | none =>
          { raised := false, prot := s2, originActive := true,
            trace := r.1, cleaned := [] }

/-- The order in which the variable operation is applied to the WCSPs of the
family for one event: first the originating WCSP (whose application fired
the callback), then — when the event came from a slave — the master variable,
then the forwards of the callback loop in iteration order. -/
def applicationOrder (masterIdx : Int) (entries : List (Int × MetaEntry))
    (failsAt : Int → Bool) (masterOpFails : Bool)
    (origin : Int) (s0 : ProtState) : List Int :=
  origin ::
    ((if origin = masterIdx then [] else [masterIdx]) ++
      (channelEvent masterIdx entries failsAt masterOpFails origin s0).trace.map
        Prod.snd)

/-- Oracle configuration for `WeightedCSPConstraint::propagate`
(tb2globalwcsp.hpp 370-408): whether the constraint is still connected,
whether each slave is present and has propagation activated, whether its
`propagate()` raises a Contradiction, and the strong-duality branch data
(`strongDuality && connected() && canbeDeconnected()` and
`problem->getLb() < lb`). -/
structure PropagateCfg where
  connected : Bool
  hasProblem : Bool
  probActive : Bool
  probFails : Bool
  sdBranch : Bool
  sdViolated : Bool
  hasNeg : Bool
  negActive : Bool
  negFails : Bool
  deriving Repr, DecidableEq

/-- `WeightedCSPConstraint::propagate()` (tb2globalwcsp.hpp 370-408),
restricted to its protection handling and contradiction flow.  Returns the
final protection state and whether a Contradiction is re-raised.  Inside the
`try`: slave propagation runs between `protect()` and `unprotect()`; the
strong-duality branch either throws (caught below) or deconnects (skipping
the negated slave); the `catch` cleans up both slaves, calls `unprotect()`
and re-raises. -/
def propagateModel (cfg : PropagateCfg) (s0 : ProtState) : ProtState × Bool :=
  if cfg.connected then
    let step1 : ProtState × Bool × Bool :=
      if cfg.hasProblem && cfg.probActive then
        let s1 := protect true s0
        if cfg.probFails then (s1, true, true)
        else
          let s2 := unprotect s1
          if cfg.sdBranch then
            if cfg.sdViolated then (s2, true, true)
            else (s2, false, false)
          else (s2, false, true)
      else (s0, false, true)
    match step1 with
    | (s, true, _) => (unprotect s, true)
    | (s, false, conn) =>
        if conn && (cfg.hasNeg && cfg.negActive) then
          let s1 := protect true s
          if cfg.negFails then (unprotect s1, true)
          else (unprotect s1, false)
        else (s, false)
  else (s0, false)

/-- The medium-cost saturation rule applied to each cost read by the CFN
parser (tb2reader.cpp 766-767, 789-790, 830-831, 1233-1234, 1253-1254):
`if (CUT(cost, ub) && cost < MEDIUM_COST*ub && ub < MAX_COST/MEDIUM_COST)
cost *= MEDIUM_COST`.  CUT and the two constants live outside the given
sources; CUT is modelled from the medium-cost rule of the spec (section 4.1) as
`cost >= ub`, and MEDIUM_COST/MAX_COST are parameters. -/
def adjustCost (ubCur mediumCost maxCost c : Int) : Int :=
  if c ≥ ubCur ∧ c < mediumCost * ubCur ∧ ubCur < maxCost / mediumCost then
    c * mediumCost
  else c

/-- The sparse-table reading loop of `CFNStreamReader::readFunctionCostTable`
(tb2reader.cpp 779-823): the table starts filled with the default cost; each
explicit tuple writes its cost into its slot, failing (exit) when the slot
already holds a non-default value; `nb` counts insertions and `mc` is the
running minimum of the explicit costs. -/
def sparseLoop (dc : Int) :
    List (Nat × Int) → List Int → Nat → Int → Option (List Int × Nat × Int)
  | [], tbl, nb, mc => some (tbl, nb, mc)
  | (i, c) :: rest, tbl, nb, mc =>
      if h : i < tbl.length then
        if tbl.get ⟨i, h⟩ ≠ dc then none
        else sparseLoop dc rest (tbl.set i c) (nb + 1) (min c mc)
      else none

/-- `CFNStreamReader::readFunctionCostTable` in full-table mode
(tb2reader.cpp 760-857 with `all` true): every cost is read, medium-adjusted
and accumulated into the minimum; the minimum is subtracted from every entry
and from `negCost`.  Returns the stored table and the new `negCost`. -/
def readFunctionCostTableFull (ubCur mediumCost maxCost negCost : Int)
    (costs : List Int) : List Int × Int :=
  let adj := costs.map (adjustCost ubCur mediumCost maxCost)
  let minCost := adj.foldl (fun m c => min c m) maxCost
  (adj.map (fun c => c - minCost), negCost - minCost)

/-- `CFNStreamReader::readFunctionCostTable` in sparse mode
(tb2reader.cpp 760-857 with `all` false): entries are (slot, cost) pairs in
read order; when fewer insertions than table slots happened the default cost
joins the minimum; the minimum is subtracted from every slot and from
`negCost`.  `none` models the redefinition error exit. -/
def readFunctionCostTableSparse (ubCur mediumCost maxCost negCost : Int)
    (size : Nat) (defaultCost0 : Int) (entries : List (Nat × Int)) :
    Option (List Int × Int) :=
  let dc := adjustCost ubCur mediumCost maxCost defaultCost0
  let es := entries.map (fun p => (p.1, adjustCost ubCur mediumCost maxCost p.2))
  match sparseLoop dc es (List.replicate size dc) 0 maxCost with
  | none => none
  | some (tbl, nb, mc) =>
      let minCost := if nb < size then min dc mc else mc
      some (tbl.map (fun c => c - minCost), negCost - minCost)

/-- What `CFNStreamReader::readNaryCostFunction` posts in sparse mode
(tb2reader.cpp 1247-1283): the shifted default cost, the explicitly listed
tuples with shifted costs, and the change applied to `negCost`. -/
structure NaryPosted where
  defaultCost : Int
  tuples : List (List Nat × Int)
  negCostDelta : Int
  deriving Repr, DecidableEq

/-- The tuple-map insertion loop of `readNaryCostFunction` (sparse mode):
`std::map::insert` fails on a duplicate tuple, which is a fatal error
(tb2reader.cpp 1256-1261).  The C++ map stores tuples in key order; only the
set of stored pairs matters here, so insertion order is kept. -/
def naryInsertAll :
    List (List Nat × Int) → List (List Nat × Int) → Option (List (List Nat × Int))
  | [], acc => some acc
  | (t, c) :: rest, acc =>
      if acc.any (fun p => p.1 == t) then none
      else naryInsertAll rest (acc ++ [(t, c)])

/-- `CFNStreamReader::readNaryCostFunction` in sparse mode
(tb2reader.cpp 1218-1284): costs are medium-adjusted, inserted with
duplicate detection, the minimum extended with the default cost when fewer
tuples than the cartesian product were listed (`card` is the exact product;
the C++ log-cardinality overflow test implies the same inclusion), and the
minimum is subtracted from the default, from every tuple cost and from
`negCost`. -/
def readNarySparse (card : Nat) (ubCur mediumCost maxCost : Int)
    (defaultCost0 : Int) (entries : List (List Nat × Int)) : Option NaryPosted :=
  let defaultCost := adjustCost ubCur mediumCost maxCost defaultCost0
  match naryInsertAll
      (entries.map (fun p => (p.1, adjustCost ubCur mediumCost maxCost p.2))) [] with
  | none => none
  | some tbl =>
      let m0 := tbl.foldl (fun m p => min p.2 m) maxCost
      let minCost := if tbl.length < card then min m0 defaultCost else m0
      some { defaultCost := defaultCost - minCost
             tuples := tbl.map (fun p => (p.1, p.2 - minCost))
             negCostDelta := -minCost }

/-- What `readNaryCostFunction` posts in full-table mode: the cost attached
to the j-th tuple in lexicographic order, and the change to `negCost`. -/
structure NaryAllPosted where
  posted : List Int
  negCostDelta : Int
  deriving Repr, DecidableEq

/-- `CFNStreamReader::readNaryCostFunction` in full-table mode
(tb2reader.cpp 1286-1330): all costs are read (no medium adjustment in this
branch) and their minimum accumulated; it is an error when fewer than `card`
costs are present; the costs are then posted UNSHIFTED on the lexicographic
tuples (`postNaryConstraintTuple(cfIndex, tup, costs[j])`, line 1322) while
`negCost -= minCost` still runs (line 1329). -/
def readNaryAll (card : Nat) (maxCost : Int) (costs : List Int) :
    Option NaryAllPosted :=
  if costs.length < card then none
  else
    some { posted := costs.take card
           negCostDelta := -(costs.foldl (fun m c => min c m) maxCost) }

/-- The value-index a literal contributes to the falsifying tuple in
`WCSP::read_wcnf` (tb2reader.cpp 3419-3421): 0 for a positive literal,
1 for a negative one. -/
def signBit (j : Int) : Nat := if 0 < j then 0 else 1

/-- The clause-reading loop of `WCSP::read_wcnf` (tb2reader.cpp 3409-3442):
literals are read until 0; each nonzero literal (ignored once `taut` is set)
is looked up in the scope built so far — a repeat with the same sign is
merged, a repeat with the opposite sign marks the clause as a tautology —
and otherwise appended with its tuple value.  Returns the (variable, tuple
value) scope and the tautology flag. -/
def clauseScan : List Int → List (Int × Nat) → Bool → List (Int × Nat) × Bool
  | [], acc, taut => (acc, taut)
  | j :: rest, acc, taut =>
      if j = 0 then (acc, taut)
      else if taut then clauseScan rest acc taut
      else
        let v : Int := |j| - 1
        let t := signBit j
        match acc.find? (fun p => p.1 == v) with
        | some p =>
            if p.2 ≠ t then clauseScan rest acc true
            else clauseScan rest acc false
        | none => clauseScan rest (acc ++ [(v, t)]) false

/-- The scope/tuple a clause of `read_wcnf` gives rise to, or `none` when the
clause is tautological and is skipped (`if (tautology) continue;`,
tb2reader.cpp 3445-3446). -/
def readClause (lits : List Int) : Option (List (Int × Nat)) :=
  let r := clauseScan lits [] false
  if r.2 then none else some r.1

/-- The clauses `read_wcnf` keeps for posting, in order: each non-tautological
clause contributes its scope/tuple, a tautological one contributes nothing
and reading proceeds with the next clause (tb2reader.cpp 3400-3492). -/
def clausesKept (clauses : List (List Int)) : List (List (Int × Nat)) :=
  clauses.filterMap readClause

/-- Truncation of a real-valued (here rational) quantity to the integer Cost
type, as the C++ conversion from double to long long rounds toward zero. -/
def ratToCost (q : Rat) : Int := if q < 0 then ⌈q⌉ else ⌊q⌋

/-- The inputs of `CFNStreamReader::enforceUB` (tb2reader.cpp 860-890) other
than the raw file bound: the accumulated `negCost`, the current upper
bound of the WCSP, the double-valued cost multiplier and relative gap (modelled as
rationals), the parsed external bound and parsed absolute delta when those
options are set (the code parses them with `decimalToCost`, defined outside
the given sources; the parsed integer value is taken as input), and
MAX_COST. -/
structure UBEnv where
  negCost : Int
  curUb : Int
  costMultiplier : Rat
  externalUB : Option Int
  deltaUbS : Option Int
  deltaUbRelativeGap : Rat
  maxCost : Int

/-- Modelled from the spec: `WCSP::updateUb`, which `enforceUB` hands its
final bound to, is defined outside the given sources; per spec sections
4.3-4.4 it clamps the upper bound to at most the existing one. -/
def updateUbModel (curUb newUb : Int) : Int := min curUb newUb

/-- `CFNStreamReader::enforceUB(bound)` (tb2reader.cpp 860-890).  `shifted`
is the Cost-truncated sign-adjusted check value; on overflow the reader
exits with an error (`none`).  Otherwise the bound is scaled and shifted,
replaced by zero when `shifted` is negative, min-ed with the shifted
external bound when one is given, increased by the delta when the delta
option is set and positive, and handed to `WCSP::updateUb`. -/
def enforceUBModel (env : UBEnv) (bound0 : Int) : Option Int :=
  let shifted0 : Int :=
    ratToCost ((bound0 : Rat) + (env.negCost : Rat) / env.costMultiplier)
  let shifted : Int := if env.costMultiplier < 0 then -shifted0 else shifted0
  if (shifted : Rat) ≤ ((env.maxCost - env.negCost : Int) : Rat) / |env.costMultiplier| then
    let bound1 : Int := ratToCost ((bound0 : Rat) * env.costMultiplier + (env.negCost : Rat))
    let bound2 : Int := if shifted < 0 then 0 else bound1
    let bound3 : Int :=
      match env.externalUB with
      | some e => min bound2 (e + env.negCost)
      | none => bound2
    let bound4 : Int :=
      match env.deltaUbS with
      | some d =>
          let dAbs := max 0 d
          let delta :=
            max dAbs (ratToCost (env.deltaUbRelativeGap * ((min bound3 env.curUb : Int) : Rat)))
          if 0 < delta then bound3 + delta else bound3
      | none => bound3
    some (updateUbModel env.curUb bound4)
  else none

/-- The upper-bound formula as the claim states it (spec section 4.5): take
the minimum of the file bound, the external bound and the current ub, scale
it by the multiplier and shift by `negCost` (a negative result being
replaced by zero), add `deltaUb = max(deltaUbAbsolute,
deltaUbRelativeGap * ub_eff)`, and clamp to at most the existing ub.  This
definition follows the words of the spec, for comparison with `enforceUBModel`
which follows the source. -/
def specUbFormula (env : UBEnv) (bound0 : Int) : Int :=
  let fileMin : Int :=
    match env.externalUB with
    | some e => min bound0 (min e env.curUb)
    | none => min bound0 env.curUb
  let ubeff : Int := ratToCost ((fileMin : Rat) * env.costMultiplier) + env.negCost
  let ubeff2 : Int := if ubeff < 0 then 0 else ubeff
  let dAbs : Int := max 0 (env.deltaUbS.getD 0)
  let delta : Int := max dAbs (ratToCost (env.deltaUbRelativeGap * (ubeff2 : Rat)))
  min env.curUb (ubeff2 + delta)

/-- C1: `universal()` returns true exactly when `isfinite` holds, both the
slave problem and the negated slave problem are present, the current
lower bound of the slave is at least `lb`, and the current lower bound of the
negated slave is
strictly greater than `-ub + negCost`; in every other case (a missing slave
included) it returns false. -/
theorem universal_true_iff (s : ConstraintState) :
    universal s = true ↔
      (s.isfinite = true ∧
        (∃ p, s.problem = some p ∧ s.lb ≤ p.lb) ∧
        (∃ np, s.negproblem = some np ∧ -s.ub + s.negCost < np.lb)) := by
  cases hp : s.problem with
  | none => simp [universal, hp]
  | some p =>
    cases hn : s.negproblem with
    | none => simp [universal, hp, hn]
    | some np =>
      simp [universal, hp, hn, ge_iff_le, and_assoc]

/-- C10: constructing a WeightedCSPConstraint fails with WrongFileFormat
exactly when `lb_in >= ub_in`, so a meta-constraint whose feasibility window
[lb, ub) is empty is never created. -/
theorem constructor_rejects_empty_window (arity : Int)
    (problem negproblem : Option SlaveWCSP) (lb_in ub_in : Int)
    (duplicateHard strongDualityIn : Bool) :
    mkWeightedCSPConstraint arity problem negproblem lb_in ub_in duplicateHard
        strongDualityIn = .error .wrongFileFormat ↔ ub_in ≤ lb_in := by
  unfold mkWeightedCSPConstraint
  split
  · rename_i h
    simp only [ge_iff_le] at h
    simp [h]
  · rename_i h
    simp only [ge_iff_le, not_le] at h
    constructor
    · intro hx
      simp at hx
    · intro hx
      omega

/-- C3: `eval` leaves the solver state unchanged: on every path — normal
probes, a lower-bound violation, and a Contradiction raised by `enforceUb`
or `assignLS` — the store is back at the pre-call depth, the propagation-activation status of both slaves is restored, the event hooks are reinstalled,
and the protection is released with the feature flags as at entry. -/
theorem eval_restores_solver_state (env : EvalEnv) (pp pn : EvalProbe)
    (st : SolverState) :
    (evalModel env pp pn st).2.depth = st.depth ∧
    (evalModel env pp pn st).2.probActive = st.probActive ∧
    (evalModel env pp pn st).2.negActive = st.negActive ∧
    (evalModel env pp pn st).2.hooksInstalled = true ∧
    (evalModel env pp pn st).2.prot.protFlag = false ∧
    (evalModel env pp pn st).2.prot.toulbar = st.prot.toulbar := by
  cases hP : env.hasProblem <;> cases hN : env.hasNeg <;>
    cases hpe : pp.enforceFails <;> cases hne : pn.enforceFails <;>
    cases hpa : pp.assignResult <;> cases hna : pn.assignResult <;>
    cases hA : st.probActive <;> cases hB : st.negActive <;>
    simp [evalModel, protect, unprotect, hP, hN, hpe, hne, hpa, hna, hA, hB]

/-- C6 (amended): for a connected scope position, `assign` decrements the
backtrackable counter `nonassigned` by one; it then deconnects the whole
constraint when it has become universal; deconnects and projects it as an
n-ary table when the number of unassigned scope variables is at most
NARYPROJECTIONSIZE and, for a strongDuality constraint, equal to zero; and
otherwise propagates. -/
theorem assign_action_characterization (narySize : Int) (s : ConstraintState)
    (connectedAt : Bool) (hc : connectedAt = true) :
    (assignScopeVar narySize s connectedAt).nonassigned = s.nonassigned - 1 ∧
    ((assignScopeVar narySize s connectedAt).action = .deconnectUniversal ↔
      universal s = true) ∧
    ((assignScopeVar narySize s connectedAt).action = .projectNaryTable ↔
      (universal s = false ∧ s.nonassigned - 1 ≤ narySize ∧
        (s.strongDuality = true → s.nonassigned - 1 = 0))) ∧
    ((assignScopeVar narySize s connectedAt).action = .propagateCall ↔
      (universal s = false ∧
        ¬(s.nonassigned - 1 ≤ narySize ∧
          (s.strongDuality = true → s.nonassigned - 1 = 0)))) := by
  subst hc
  cases hu : universal s <;> cases hsd : s.strongDuality <;>
    by_cases h1 : s.nonassigned - 1 ≤ narySize <;>
    by_cases h2 : s.nonassigned - 1 = 0 <;>
    simp_all [assignScopeVar] <;>
    split_ifs <;> simp_all <;> omega

/-- A constraint state with strong duality set, two unassigned scope
variables and no negated slave (hence not universal). -/
def strongDualityEx : ConstraintState :=
  { isfinite := true, strongDuality := true, lb := 0, ub := 1, negCost := 0,
    problem := none, negproblem := none, nonassigned := 2 }

/-- C6 counterexample: with strongDuality set, NARYPROJECTIONSIZE = 3 and two
unassigned variables, assigning a connected scope position leaves one
unassigned variable — low enough for n-ary projection according to the claim
— yet the code propagates instead of deconnecting and projecting. -/
theorem strong_duality_blocks_projection :
    (assignScopeVar 3 strongDualityEx true).nonassigned = 1 ∧
    (1 : Int) ≤ 3 ∧
    universal strongDualityEx = false ∧
    (assignScopeVar 3 strongDualityEx true).action = .propagateCall := by
  decide

/-- A constraint state without strong duality, five unassigned scope
variables and no slave problems. -/
def plainAssignEx : ConstraintState :=
  { isfinite := true, strongDuality := false, lb := 0, ub := 1, negCost := 0,
    problem := none, negproblem := none, nonassigned := 5 }

/-- Witness for the amended assign characterization at a concrete state. -/
theorem assign_action_characterization_witness :
    (assignScopeVar 3 plainAssignEx true).nonassigned = plainAssignEx.nonassigned - 1 ∧
    ((assignScopeVar 3 plainAssignEx true).action = .deconnectUniversal ↔
      universal plainAssignEx = true) ∧
    ((assignScopeVar 3 plainAssignEx true).action = .projectNaryTable ↔
      (universal plainAssignEx = false ∧ plainAssignEx.nonassigned - 1 ≤ 3 ∧
        (plainAssignEx.strongDuality = true → plainAssignEx.nonassigned - 1 = 0))) ∧
    ((assignScopeVar 3 plainAssignEx true).action = .propagateCall ↔
      (universal plainAssignEx = false ∧
        ¬(plainAssignEx.nonassigned - 1 ≤ 3 ∧
          (plainAssignEx.strongDuality = true → plainAssignEx.nonassigned - 1 = 0)))) :=
  assign_action_characterization 3 plainAssignEx true rfl

/-- C4 (amended): a master-originated channelled event callback and
`propagate()`, entered with `_protected_` false, exit with the flag false and
the ten preprocessing feature flags restored to their entry values, both on
normal return and when a Contradiction is re-raised.  (A slave-originated
callback instead exits its normal path with the protection re-acquired; see
the counterexample.) -/
theorem protection_restored_on_exit (s0 : ProtState) (h0 : s0.protFlag = false)
    (masterIdx : Int) (entries : List (Int × MetaEntry)) (failsAt : Int → Bool)
    (mof : Bool) (cfg : PropagateCfg) :
    ((channelEvent masterIdx entries failsAt mof masterIdx s0).prot.protFlag = false ∧
      (channelEvent masterIdx entries failsAt mof masterIdx s0).prot.toulbar =
        s0.toulbar) ∧
    ((propagateModel cfg s0).1.protFlag = false ∧
      (propagateModel cfg s0).1.toulbar = s0.toulbar) := by
  constructor
  · unfold channelEvent
    rw [if_pos rfl]
    cases hr : (runForwards failsAt (allForwards masterIdx entries)).2 <;>
      simp [hr, protect, unprotect]
  · unfold propagateModel
    cases hc : cfg.connected <;>
      cases hhp : cfg.hasProblem <;> cases hpa : cfg.probActive <;>
      cases hpf : cfg.probFails <;> cases hsb : cfg.sdBranch <;>
      cases hsv : cfg.sdViolated <;>
      cases hhn : cfg.hasNeg <;> cases hna : cfg.negActive <;>
      cases hnf : cfg.negFails <;>
      simp [protect, unprotect, h0, hc, hhp, hpa, hpf, hsb, hsv, hhn, hna, hnf]

/-- Feature flags pairwise different from the protection defaults, to make
clobbering observable. -/
def exFlagsA : ToulFlags :=
  { preprocessFunctional := 2, elimDegree := 5, elimDegree_preprocessing := 6,
    elimDegree_ := 7, elimDegree_preprocessing_ := 8, DEE := 1, DEE_ := 1,
    FullEAC := true, RASPS := true, useRASPS := 9 }

/-- An unprotected entry state with observable live flags. -/
def exProtA : ProtState :=
  { toulbar := exFlagsA, saved := protectedFlags, protFlag := false }

/-- C4 counterexample: a slave-originated channelled event (origin 0, master
index 100) entered with `_protected_` false returns normally with
`_protected_` still set and the live preprocessing flags left overwritten,
contrary to the claim that every channelled event callback entered with the
flag false exits with it false and the flags restored. -/
theorem slave_event_leaves_protection_set :
    exProtA.protFlag = false ∧
    (channelEvent 100 [] (fun _ => false) false 0 exProtA).raised = false ∧
    (channelEvent 100 [] (fun _ => false) false 0 exProtA).prot.protFlag = true ∧
    (channelEvent 100 [] (fun _ => false) false 0 exProtA).prot.toulbar ≠
      exProtA.toulbar := by
  decide

/-- A propagate configuration exercising the slave-propagation branch. -/
def exPropCfg : PropagateCfg :=
  { connected := true, hasProblem := true, probActive := true, probFails := false,
    sdBranch := false, sdViolated := false, hasNeg := true, negActive := true,
    negFails := true }

/-- Witness for the amended protection-restoration theorem at a concrete
unprotected entry state, with a contradiction in the negated slave. -/
theorem protection_restored_on_exit_witness :
    ((channelEvent 100 [] (fun _ => false) false 100 exProtA).prot.protFlag = false ∧
      (channelEvent 100 [] (fun _ => false) false 100 exProtA).prot.toulbar =
        exProtA.toulbar) ∧
    ((propagateModel exPropCfg exProtA).1.protFlag = false ∧
      (propagateModel exPropCfg exProtA).1.toulbar = exProtA.toulbar) :=
  protection_restored_on_exit exProtA rfl 100 [] (fun _ => false) false exPropCfg

/-- C5 (amended): a channelled event callback re-enables propagation in the
originating WCSP exactly when it exits normally; when a forwarded operation
(or, for a slave-originated event, the master operation) raises a
contradiction, the callback cleans up, re-raises, and leaves the originating
propagation of that WCSP deactivated. -/
theorem origin_reactivated_iff_no_contradiction (masterIdx : Int)
    (entries : List (Int × MetaEntry)) (failsAt : Int → Bool)
    (mof : Bool) (origin : Int) (s0 : ProtState) :
    (channelEvent masterIdx entries failsAt mof origin s0).originActive =
      !(channelEvent masterIdx entries failsAt mof origin s0).raised := by
  unfold channelEvent
  split
  · cases hr : (runForwards failsAt (allForwards origin entries)).2 <;> simp [hr]
  · cases mof
    · simp only [Bool.false_eq_true, if_false]
      cases hr : (runForwards failsAt (allForwards origin entries)).2 <;> simp [hr]
    · simp

/-- A table entry channelling the variable of the event to slave problem 7. -/
def exEntryB : MetaEntry :=
  { connected := true, containsVar := true, problemIdx := some 7,
    negproblemIdx := none }

/-- C5 counterexample: a master-originated event whose forward to slave 7
raises a contradiction cleans up that slave and re-raises, but propagation in
the originating WCSP is left deactivated, contrary to the claim that it is
re-enabled on every exit path. -/
theorem contradiction_path_skips_reactivation :
    (channelEvent 100 [(0, exEntryB)] (fun t => t == 7) false 100 exProtA).raised =
      true ∧
    (channelEvent 100 [(0, exEntryB)] (fun t => t == 7) false 100
        exProtA).originActive = false ∧
    (channelEvent 100 [(0, exEntryB)] (fun t => t == 7) false 100 exProtA).cleaned =
      [7] := by
  decide

/-- A forward target generated by a table entry is never the originating
WCSP: the loop tests `wcspId != ...->getIndex()` before each forward. -/
theorem entryTargets_ne_origin (origin : Int) (e : MetaEntry) (t : Int)
    (ht : t ∈ entryTargets origin e) : t ≠ origin := by
  rcases e with ⟨conn, cv, pi, ni⟩
  unfold entryTargets at ht
  split at ht
  · rcases List.mem_append.1 ht with h | h
    · rcases pi with _ | p
      · simp at h
      · simp only at h
        split at h
        · rename_i hp
          rcases List.mem_singleton.1 h with rfl
          exact hp
        · simp at h
    · rcases ni with _ | q
      · simp at h
      · simp only at h
        split at h
        · rename_i hq
          rcases List.mem_singleton.1 h with rfl
          exact of_decide_eq_true (Bool.and_elim_right hq)
        · simp at h
  · simp at ht

/-- Membership in the flattened forward list comes from some table entry. -/
theorem allForwards_key_mem (origin : Int) (entries : List (Int × MetaEntry))
    (p : Int × Int) (hp : p ∈ allForwards origin entries) :
    (∃ e, (p.1, e) ∈ entries) ∧ p.2 ≠ origin := by
  unfold allForwards at hp
  rcases List.mem_flatMap.1 hp with ⟨ke, hke, hmem⟩
  rcases List.mem_map.1 hmem with ⟨t, ht, rfl⟩
  exact ⟨⟨ke.2, by simpa using hke⟩, entryTargets_ne_origin origin ke.2 t ht⟩

/-- Helper: a pairwise property that holds unconditionally. -/
theorem pairwise_of_total {α : Type} {R : α → α → Prop} (h : ∀ a b, R a b) :
    ∀ l : List α, l.Pairwise R := by
  intro l
  induction l with
  | nil => exact List.Pairwise.nil
  | cons a rest ih => exact List.Pairwise.cons (fun b _ => h a b) ih

/-- The forwards of one callback, in iteration order, carry weakly ascending
table keys: the C++ std::map is iterated in ascending key order. -/
theorem allForwards_keys_sorted (origin : Int) (entries : List (Int × MetaEntry))
    (h : entries.Pairwise (fun a b => a.1 < b.1)) :
    (allForwards origin entries).Pairwise (fun a b => a.1 ≤ b.1) := by
  induction entries with
  | nil => exact List.Pairwise.nil
  | cons ke rest ih =>
    rcases List.pairwise_cons.1 h with ⟨hke, hrest⟩
    rw [allForwards, List.flatMap_cons]
    apply List.pairwise_append.2
    refine ⟨?_, ih hrest, ?_⟩
    · exact List.pairwise_map.2 (pairwise_of_total (fun a b => le_refl ke.1) _)
    · intro a ha b hb
      rcases List.mem_map.1 ha with ⟨t, _, rfl⟩
      rcases (allForwards_key_mem origin rest b hb).1 with ⟨e, hbe⟩
      exact le_of_lt (hke (b.1, e) hbe)

/-- The forwards actually attempted form a sublist (in fact a prefix) of the
full forward list: the loop aborts at the first contradiction. -/
theorem runForwards_sublist (failsAt : Int → Bool) (l : List (Int × Int)) :
    List.Sublist (runForwards failsAt l).1 l := by
  induction l with
  | nil => simp [runForwards]
  | cons a rest ih =>
    rcases a with ⟨k, t⟩
    unfold runForwards
    split
    · exact List.Sublist.cons₂ (k, t) (List.nil_sublist rest)
    · exact List.Sublist.cons₂ (k, t) ih

/-- The trace of a callback is a sublist of the full forward list. -/
theorem channelEvent_trace_sublist (masterIdx : Int)
    (entries : List (Int × MetaEntry)) (failsAt : Int → Bool)
    (mof : Bool) (origin : Int) (s0 : ProtState) :
    List.Sublist (channelEvent masterIdx entries failsAt mof origin s0).trace
      (allForwards origin entries) := by
  unfold channelEvent
  split
  · cases hr : (runForwards failsAt (allForwards origin entries)).2 <;>
      simp only [hr] <;> exact runForwards_sublist failsAt _
  · cases mof
    · simp only [Bool.false_eq_true, if_false]
      cases hr : (runForwards failsAt (allForwards origin entries)).2 <;>
        simp only [hr] <;> exact runForwards_sublist failsAt _
    · simp only [if_true]
      exact List.nil_sublist _

/-- C2: for every channelled variable event (assign, remove, setmin, setmax)
fired in any WCSP of the family, the operation is applied first in the
originating WCSP (the application that fires the callback), then forwarded
to the other member problems of the connected meta-constraints channelling
that variable, following the meta-constraint table in ascending order of
slave WCSP index, and no forwarded operation targets the WCSP the event
originated in. -/
theorem channel_event_ordering (masterIdx : Int)
    (entries : List (Int × MetaEntry)) (failsAt : Int → Bool)
    (mof : Bool) (origin : Int) (s0 : ProtState)
    (hsorted : entries.Pairwise (fun a b => a.1 < b.1)) :
    (applicationOrder masterIdx entries failsAt mof origin s0).head? =
      some origin ∧
    (∀ t ∈ (applicationOrder masterIdx entries failsAt mof origin s0).tail,
      t ≠ origin) ∧
    (channelEvent masterIdx entries failsAt mof origin s0).trace.Pairwise
      (fun a b => a.1 ≤ b.1) := by
  refine ⟨rfl, ?_, ?_⟩
  · intro t ht
    rw [applicationOrder, List.tail_cons] at ht
    rcases List.mem_append.1 ht with h | h
    · by_cases hom : origin = masterIdx
      · rw [if_pos hom] at h
        simp at h
      · rw [if_neg hom] at h
        rcases List.mem_singleton.1 h with rfl
        exact fun he => hom he.symm
    · rcases List.mem_map.1 h with ⟨p, hp, rfl⟩
      have hmem : p ∈ allForwards origin entries :=
        (channelEvent_trace_sublist masterIdx entries failsAt mof origin
          s0).subset hp
      exact (allForwards_key_mem origin entries p hmem).2
  · exact (allForwards_keys_sorted origin entries hsorted).sublist
      (channelEvent_trace_sublist masterIdx entries failsAt mof origin s0)

/-- One meta-constraint with slave problem 1 and negated slave 2, registered
in the table under both of its slave indices, as the constructor does. -/
def exEntryC : MetaEntry :=
  { connected := true, containsVar := true, problemIdx := some 1,
    negproblemIdx := some 2 }

/-- Witness for the event-ordering theorem: a master-originated event over a
sorted two-entry table. -/
theorem channel_event_ordering_witness :
    (applicationOrder 100 [(1, exEntryC), (2, exEntryC)] (fun _ => false) false
      100 exProtA).head? = some 100 ∧
    (∀ t ∈ (applicationOrder 100 [(1, exEntryC), (2, exEntryC)] (fun _ => false)
        false 100 exProtA).tail, t ≠ 100) ∧
    (channelEvent 100 [(1, exEntryC), (2, exEntryC)] (fun _ => false) false 100
      exProtA).trace.Pairwise (fun a b => a.1 ≤ b.1) :=
  channel_event_ordering 100 [(1, exEntryC), (2, exEntryC)] (fun _ => false)
    false 100 exProtA (by decide)

/-- Once the tautology flag is set, the remaining literals are read but
ignored: scope and flag are left unchanged. -/
theorem clauseScan_taut (lits : List Int) :
    ∀ acc, clauseScan lits acc true = (acc, true) := by
  induction lits with
  | nil => intro acc; rfl
  | cons j rest ih =>
    intro acc
    by_cases hj : j = 0
    · simp [clauseScan, hj]
    · simp [clauseScan, hj, ih]

/-- The scope built so far only grows during the scan. -/
theorem clauseScan_sub (lits : List Int) :
    ∀ acc taut p, p ∈ acc → p ∈ (clauseScan lits acc taut).1 := by
  induction lits with
  | nil => intro acc taut p hp; exact hp
  | cons j rest ih =>
    intro acc taut p hp
    by_cases hj : j = 0
    · simp only [clauseScan, hj, if_pos]
      exact hp
    · cases taut
      · simp only [clauseScan, hj, if_neg, Bool.false_eq_true, if_false]
        cases hf : acc.find? (fun q => q.1 == |j| - 1) with
        | none =>
          dsimp only
          exact ih _ _ p (List.mem_append_left _ hp)
        | some q =>
          dsimp only
          split
          · exact ih _ _ p hp
          · exact ih _ _ p hp
      · simp only [clauseScan, hj, if_neg, if_true]
        exact ih _ _ p hp

/-- The scan keeps the variable list of the scope duplicate-free. -/
theorem clauseScan_nodupkeys (lits : List Int) :
    ∀ acc taut, (acc.map Prod.fst).Nodup →
      ((clauseScan lits acc taut).1.map Prod.fst).Nodup := by
  induction lits with
  | nil => intro acc taut h; exact h
  | cons j rest ih =>
    intro acc taut h
    by_cases hj : j = 0
    · simp only [clauseScan, hj, if_pos]
      exact h
    · cases taut
      · simp only [clauseScan, hj, if_neg, Bool.false_eq_true, if_false]
        cases hf : acc.find? (fun q => q.1 == |j| - 1) with
        | none =>
          dsimp only
          apply ih
          rw [List.map_append]
          apply List.Nodup.append h (by simp)
          intro v hv hv2
          simp only [List.map_cons, List.map_nil, List.mem_singleton] at hv2
          subst hv2
          rcases List.mem_map.1 hv with ⟨q, hq, hq1⟩
          have := List.find?_eq_none.1 hf q hq
          simp only [beq_iff_eq] at this
          exact this hq1
        | some q =>
          dsimp only
          split
          · exact ih _ _ h
          · exact ih _ _ h
      · simp only [clauseScan, hj, if_neg, if_true]
        exact ih _ _ h

/-- If the whole clause scans without detecting a tautology, then the final
scope holds, for every literal of the clause, the variable of the literal paired
with the sign bit of that same literal. -/
theorem clauseScan_mem_sign (lits : List Int) :
    ∀ acc, (0 : Int) ∉ lits → (clauseScan lits acc false).2 = false →
      ∀ m ∈ lits, ((|m| - 1 : Int), signBit m) ∈ (clauseScan lits acc false).1 := by
  induction lits with
  | nil => intro acc _ _ m hm; simp at hm
  | cons j rest ih =>
    intro acc h0 hres m hm
    have hj : j ≠ 0 := fun hc => h0 (by simp [hc])
    have h0r : (0 : Int) ∉ rest := fun hc => h0 (List.mem_cons_of_mem _ hc)
    simp only [clauseScan, hj, if_neg, Bool.false_eq_true, if_false] at hres ⊢
    cases hf : acc.find? (fun q => q.1 == |j| - 1) with
    | none =>
      rw [hf] at hres
      dsimp only at hres ⊢
      rcases List.mem_cons.1 hm with rfl | hmr
      · exact clauseScan_sub rest _ false _ (List.mem_append_right _ (by simp))
      · exact ih _ h0r hres m hmr
    | some q =>
      rw [hf] at hres
      dsimp only at hres ⊢
      by_cases hq : q.2 = signBit j
      · simp only [ne_eq, hq, not_true_eq_false, if_false, ite_false] at hres ⊢
        rcases List.mem_cons.1 hm with rfl | hmr
        · have hq1 : q.1 = |m| - 1 := by
            have := List.find?_some hf
            simpa [beq_iff_eq] using this
          have hqmem : q ∈ acc := List.mem_of_find?_eq_some hf
          have hqe : ((|m| - 1 : Int), signBit m) = q := by
            rcases q with ⟨qv, qt⟩
            simp only at hq1 hq
            rw [hq1, hq]
          rw [hqe]
          exact clauseScan_sub rest _ false q hqmem
        · exact ih _ h0r hres m hmr
      · simp only [ne_eq, hq, not_false_eq_true, if_true, ite_true] at hres
        rw [clauseScan_taut] at hres
        simp at hres

/-- In a duplicate-free-keyed scope, the sign stored for a variable is
unique. -/
theorem nodup_keys_eq {l : List (Int × Nat)} (h : (l.map Prod.fst).Nodup)
    {v : Int} {t1 t2 : Nat} (h1 : (v, t1) ∈ l) (h2 : (v, t2) ∈ l) : t1 = t2 := by
  induction l with
  | nil => simp at h1
  | cons a rest ih =>
    rw [List.map_cons, List.nodup_cons] at h
    rcases List.mem_cons.1 h1 with e1 | m1 <;> rcases List.mem_cons.1 h2 with e2 | m2
    · subst e1
      injection e2 with _ h'
      exact h'.symm
    · subst e1
      exact absurd (List.mem_map.2 ⟨(v, t2), m2, rfl⟩) h.1
    · subst e2
      exact absurd (List.mem_map.2 ⟨(v, t1), m1, rfl⟩) h.1
    · exact ih h.2 m1 m2

/-- Opposite literals have different sign bits. -/
theorem signBit_neg_ne (l : Int) (hl : l ≠ 0) : signBit l ≠ signBit (-l) := by
  unfold signBit
  split_ifs <;> omega

/-- C9: the WCNF/CNF reader skips tautological clauses — a clause containing
both a literal and its negation produces no scope to post a cost function
on, and reading continues with the next clause. -/
theorem tautological_clause_skipped (c : List Int) (rest : List (List Int))
    (l : Int) (h0 : (0 : Int) ∉ c) (hl : l ∈ c) (hnl : -l ∈ c) (hlz : l ≠ 0) :
    readClause c = none ∧ clausesKept (c :: rest) = clausesKept rest := by
  have htaut : (clauseScan c [] false).2 = true := by
    by_contra hn
    have hfalse : (clauseScan c [] false).2 = false := by
      cases h : (clauseScan c [] false).2
      · rfl
      · exact absurd h hn
    have m1 := clauseScan_mem_sign c [] h0 hfalse l hl
    have m2 := clauseScan_mem_sign c [] h0 hfalse (-l) hnl
    rw [abs_neg] at m2
    have hk : ((clauseScan c [] false).1.map Prod.fst).Nodup :=
      clauseScan_nodupkeys c [] false (by simp)
    exact signBit_neg_ne l hlz (nodup_keys_eq hk m1 m2)
  refine ⟨?_, ?_⟩
  · simp [readClause, htaut]
  · rw [clausesKept, List.filterMap_cons]
    simp [readClause, htaut, clausesKept]

/-- Witness for the tautology theorem on the literal clause `1 -1 0` of the
scenario S3 of the spec. -/
theorem tautological_clause_skipped_witness :
    readClause [1, -1] = none ∧ clausesKept [[1, -1]] = clausesKept [] :=
  tautological_clause_skipped [1, -1] [] 1 (by decide) (by decide) (by decide)
    (by decide)

/-- C7: code-bug evidence.  In the full-table mode of `readNaryCostFunction`
(here: four Boolean variables, sixteen costs all equal to 1) the costs are
posted unshifted while `negCost` is still decreased by the table minimum 1,
so the stored costs are not the input costs shifted down by the minimum
(which would give all zeros) and cost conservation relative to `negCost` is
broken.  By contrast, the sparse mode of the same function shifts (a listed
tuple of cost 1 under default cost 5 is stored as 0 with default 4) and so
does the 1/2/3-ary table reader `readFunctionCostTable`, in both modes, as
the claim describes. -/
theorem nary_full_table_costs_not_shifted :
    readNaryAll 16 1000000 (List.replicate 16 1) =
      some { posted := List.replicate 16 1, negCostDelta := -1 } ∧
    (List.replicate 16 (1 : Int)).map (fun c => c - 1) ≠
      List.replicate 16 (1 : Int) ∧
    readNarySparse 16 1000000 3 1000000000 5 [([0, 0, 0, 0], 1)] =
      some { defaultCost := 4, tuples := [([0, 0, 0, 0], 0)],
             negCostDelta := -1 } ∧
    readFunctionCostTableFull 1000000 3 1000000000 0 [1, 3, 2, 1] =
      ([0, 2, 1, 0], -1) ∧
    readFunctionCostTableSparse 1000000 3 1000000000 0 4 5 [(2, 1)] =
      some ([4, 4, 0, 4], -1) := by
  decide

/-- Truncation is the identity on integers. -/
theorem ratToCost_intCast (n : Int) : ratToCost ((n : Int) : Rat) = n := by
  unfold ratToCost
  split <;> simp

/-- The enforceUB environment of the counterexample: cost multiplier −1
(maximisation), accumulated shift 20, current upper bound 8, no external
bound and no delta option. -/
def envC8 : UBEnv :=
  { negCost := 20, curUb := 8, costMultiplier := -1, externalUB := none,
    deltaUbS := none, deltaUbRelativeGap := 0, maxCost := 1000000 }

/-- C8 counterexample: on the file bound 15 with multiplier −1, `negCost` 20
and current ub 8, `enforceUB` installs `min(8, 15·(−1)+20) = 5`, while the
formula of the claim takes the minimum with the current ub before scaling,
`min(8, min(15, 8)·(−1)+20) = 8`; the two disagree. -/
theorem enforceUB_differs_from_spec_formula :
    enforceUBModel envC8 15 = some 5 ∧ specUbFormula envC8 15 = 8 := by
  constructor
  · have h5 : ⌈(-5 : Rat)⌉ = -5 := by
      rw [show ((-5 : Rat)) = ((-5 : Int) : Rat) by norm_num, Int.ceil_intCast]
    norm_num [enforceUBModel, updateUbModel, envC8, ratToCost, h5]
  · have h8 : ⌈(-8 : Rat)⌉ = -8 := by
      rw [show ((-8 : Rat)) = ((-8 : Int) : Rat) by norm_num, Int.ceil_intCast]
    norm_num [specUbFormula, envC8, ratToCost, h8]

/-- Truncation of the rational zero. -/
theorem ratToCost_zero : ratToCost 0 = 0 := by
  simpa using ratToCost_intCast 0

/-- C8 (amended): in the default configuration — cost multiplier 1, no
external bound, no delta option, zero relative gap — with non-negative
`negCost` and no overflow, `enforceUB` installs exactly the bound given by
the formula of the claim.  In general the current ub does not participate in the
minimum before scaling (it acts only through the final clamp and the
relative-gap term), and with a negative multiplier the installed bound and
the formula of the claim disagree; see the counterexample. -/
theorem enforceUB_matches_spec_formula_unit_multiplier (env : UBEnv)
    (bound0 : Int)
    (hK : env.costMultiplier = 1)
    (hExt : env.externalUB = none)
    (hDel : env.deltaUbS = none)
    (hGap : env.deltaUbRelativeGap = 0)
    (hNeg : 0 ≤ env.negCost)
    (hOv : bound0 + env.negCost ≤ env.maxCost - env.negCost) :
    enforceUBModel env bound0 = some (specUbFormula env bound0) := by
  have hn1 : ¬((1 : Rat) < 0) := by norm_num
  simp only [enforceUBModel, updateUbModel, specUbFormula, hK, hExt, hDel,
    hGap, div_one, mul_one, abs_one, zero_mul, Option.getD_none, ← Int.cast_add,
    ratToCost_intCast, ratToCost_zero, if_neg hn1, Int.cast_le]
  rw [if_pos hOv]
  congr 1
  simp only [max_self, add_zero]
  split_ifs <;> omega

/-- The enforceUB environment of the amended-theorem witness: multiplier 1,
shift 4, current ub 50, no external bound or delta option. -/
def envC8W : UBEnv :=
  { negCost := 4, curUb := 50, costMultiplier := 1, externalUB := none,
    deltaUbS := none, deltaUbRelativeGap := 0, maxCost := 1000000 }

/-- Witness for the amended enforceUB theorem on the file bound 30. -/
theorem enforceUB_matches_spec_formula_unit_multiplier_witness :
    enforceUBModel envC8W 30 = some (specUbFormula envC8W 30) :=
  enforceUB_matches_spec_formula_unit_multiplier envC8W 30 rfl rfl rfl rfl
    (by norm_num [envC8W]) (by norm_num [envC8W])

end Toulbar2
